import Mathlib

/-!
Shallow embedding of the Portfolio_Backend REST service.

Document collections are modelled as Lean lists of records, MongoDB object
ids as natural numbers, and timestamps as natural numbers.  Each HTTP
handler becomes a pure function from its request data and the current
store to a status code (and payload, where a claim needs it) together with
the updated store.  The two external libraries the handlers delegate to
(jsonwebtoken and validator.js) are modelled from their documented
behaviour, since their code is not part of this repository.
-/

namespace Portfolio

/-! ### Kernel-reducible string helpers

The JavaScript string operations the handlers rely on - trim,
toLowerCase, and the splitting validator.js performs - are modelled
directly over the character list of a string, so that concrete witness
inputs evaluate inside the kernel. -/

/-- JavaScript String.prototype.trim: strip whitespace from both ends. -/
def trimStr (s : String) : String :=
  ⟨((s.data.dropWhile (fun c => c.isWhitespace)).reverse.dropWhile
      (fun c => c.isWhitespace)).reverse⟩

/-- JavaScript String.prototype.toLowerCase (ASCII part, as used for the
lowercase option of the contact email schema path). -/
def lowerStr (s : String) : String :=
  ⟨s.data.map (fun c => c.toLower)⟩

/-- Split a character list on a separator character; always returns at
least one (possibly empty) chunk, like String.prototype.split. -/
def splitChar (sep : Char) : List Char → List (List Char)
  | [] => [[]]
  | c :: cs =>
    let rest := splitChar sep cs
    if c == sep then [] :: rest
    else
      match rest with
      | [] => [[c]]
      | chunk :: more => (c :: chunk) :: more

/-- Generic model of the mongoose pattern findById-or-findOne, mutate the
found document in memory, save: only the first list element satisfying the
query is replaced, everything else is untouched. -/
def updateFirst (q : α → Bool) (f : α → α) : List α → List α
  | [] => []
  | x :: xs => if q x then f x :: xs else x :: updateFirst q f xs

/-! ### Project documents (src/unnamed/part_002, projectSchema) -/

/-- A stored Project document.  The impact subdocument is flattened into
its metrics list and description, and the links subdocument into its three
string fields. -/
structure Project where
  id : Nat
  title : String
  description : String
  problemStatement : String
  techStack : List String
  role : String
  challenges : List String
  impactMetrics : List (String × String)
  impactDescription : String
  image : String
  linksGithub : String
  linksLive : String
  linksDemo : String
  featured : Bool
  order : Int
  isActive : Bool
  createdAt : Nat
deriving Repr, DecidableEq

/-- The record shape the public project routes return: select("-isActive")
keeps every stored field except isActive. -/
structure PublicProject where
  id : Nat
  title : String
  description : String
  problemStatement : String
  techStack : List String
  role : String
  challenges : List String
  impactMetrics : List (String × String)
  impactDescription : String
  image : String
  linksGithub : String
  linksLive : String
  linksDemo : String
  featured : Bool
  order : Int
  createdAt : Nat
deriving Repr, DecidableEq

/-- Projection performed by select("-isActive"). -/
def stripIsActive (p : Project) : PublicProject :=
  { id := p.id, title := p.title, description := p.description,
    problemStatement := p.problemStatement, techStack := p.techStack,
    role := p.role, challenges := p.challenges,
    impactMetrics := p.impactMetrics, impactDescription := p.impactDescription,
    image := p.image, linksGithub := p.linksGithub, linksLive := p.linksLive,
    linksDemo := p.linksDemo, featured := p.featured, order := p.order,
    createdAt := p.createdAt }

/-- The Mongo filter built by GET /api/public/projects: isActive true, and
featured true as well exactly when the query string parameter featured
equals the string true (src/routes/public.js lines 29-34). -/
def projectQuery (featuredQ : Option String) (p : Project) : Bool :=
  if featuredQ == some "true" then p.isActive && p.featured else p.isActive

/-- Boolean comparator for the Mongo sort specification order ascending,
createdAt descending (src/routes/public.js line 37). -/
def projLE (a b : Project) : Bool :=
  decide (a.order < b.order) ||
    (a.order == b.order && decide (b.createdAt ≤ a.createdAt))

/-- GET /api/public/projects (src/routes/public.js lines 27-45): filter by
the query, sort by order ascending then createdAt descending, strip
isActive. -/
def publicListProjects (featuredQ : Option String) (store : List Project) :
    List PublicProject :=
  ((store.filter (projectQuery featuredQ)).mergeSort projLE).map stripIsActive

/-- GET /api/public/projects/:id (src/routes/public.js lines 50-66):
findOne on id and isActive true; none models the 404 response. -/
def publicGetProject (pid : Nat) (store : List Project) : Option PublicProject :=
  (store.find? (fun p => p.id == pid && p.isActive)).map stripIsActive

/-! ### Auth middleware (src/middleware/auth.js) -/

/-- A bearer token as the middleware sees it after stripping the Bearer
prefix.  Modelled from the jsonwebtoken dependency (external library): a
token carries the subject id of its payload, the secret it was signed
with, and whether it has expired. -/
structure Token where
  subjectId : Nat
  signedWith : String
  expired : Bool
deriving Repr, DecidableEq

/-- Modelled from the jsonwebtoken dependency (external library):
jwt.verify returns the decoded payload exactly when the token was signed
with the given secret and has not expired; in every other case it throws,
which the middleware catch block turns into a 401 response. -/
def jwtVerify (t : Token) (secret : String) : Option Nat :=
  if t.signedWith == secret && !t.expired then some t.subjectId else none

/-- A stored Admin document, as read back by
Admin.findById(...).select("-password"). -/
structure AdminUser where
  id : Nat
  name : String
  email : String
  isActive : Bool
deriving Repr, DecidableEq

/-- Outcome of the auth middleware: either the request is admitted with an
identity attached to req.admin, or it is rejected with status 401. -/
inductive AuthResult where
  | granted (adminId adminName adminEmail : String)
  | denied401
deriving Repr, DecidableEq

/-- The auth middleware (src/middleware/auth.js lines 4-31).  When
NODE_ENV is unset or equals development it attaches a synthetic dev-admin
identity and admits the request without looking at the header; otherwise a
missing token, a failed jwt.verify (wrong secret or expired, both throw
and are caught), or a nonexistent or inactive admin all yield 401. -/
def authMiddleware (nodeEnv : Option String) (jwtSecret : String)
    (bearer : Option Token) (admins : List AdminUser) : AuthResult :=
  if nodeEnv == none || nodeEnv == some "development" then
    .granted "dev-admin" "Dev Admin" "dev@example.com"
  else
    match bearer with
    | none => .denied401
    | some t =>
      match jwtVerify t jwtSecret with
      | none => .denied401
      | some sub =>
        match admins.find? (fun a => a.id == sub) with
        | none => .denied401
        | some a =>
          if a.isActive then .granted (toString a.id) a.name a.email
          else .denied401

/-! ### Contact documents (src/unnamed/part_002, contactSchema) and their
routes (src/routes/public.js, src/routes/admin.js) -/

/-- A stored Contact document.  The schema defaults are isRead false,
isReplied false, reply the empty string, repliedAt null (modelled as
none). -/
structure Contact where
  id : Nat
  name : String
  email : String
  subject : String
  message : String
  isRead : Bool
  isReplied : Bool
  reply : String
  repliedAt : Option Nat
  createdAt : Nat
deriving Repr, DecidableEq

/-- The request body of POST /api/public/contact; none models an absent
field (express-validator treats a missing value as the empty string). -/
structure ContactBody where
  name : Option String
  email : Option String
  subject : Option String
  message : Option String
deriving Repr, DecidableEq

/-- An express-validator chain trim().isLength(min): the value is trimmed
by the sanitizer and must then have at least minLen characters; an absent
field fails. -/
def vMinLen (v : Option String) (minLen : Nat) : Bool :=
  match v with
  | none => false
  | some s => decide (minLen ≤ (trimStr s).length)

/-- Modelled from the validator.js isEmail dependency (external library):
a simplified RFC-shape check - exactly one at-sign, a nonempty local part,
a domain of at least two nonempty dot-separated labels, and no spaces. -/
def isEmailShape (s : String) : Bool :=
  match splitChar '@' s.data with
  | [locPart, domain] =>
    let labels := splitChar '.' domain
    !locPart.isEmpty && decide (2 ≤ labels.length) &&
      labels.all (fun l => !l.isEmpty) && !(s.data.contains ' ')
  | _ => false

/-- The email validator of the contact route (no trim sanitizer on this
chain); an absent field fails. -/
def vEmail (v : Option String) : Bool :=
  match v with
  | none => false
  | some s => isEmailShape s

/-- The validation errors of POST /api/public/contact in declaration order
(src/routes/public.js lines 112-116), as produced by errors.array():
every failing chain contributes its own field/message entry. -/
def contactErrors (b : ContactBody) : List (String × String) :=
  (if vMinLen b.name 2 then [] else
    [("name", "Name must be at least 2 characters")]) ++
  (if vEmail b.email then [] else
    [("email", "Please provide a valid email")]) ++
  (if vMinLen b.subject 5 then [] else
    [("subject", "Subject must be at least 5 characters")]) ++
  (if vMinLen b.message 10 then [] else
    [("message", "Message must be at least 10 characters")])

/-- POST /api/public/contact (src/routes/public.js lines 112-145).  On
validation failure: 400 with the full error list and an unchanged store.
On success: 201 and a new Contact appended, built from the sanitized
(trimmed) body values, with the schema lowercasing the email and the
defaults isRead false, isReplied false, reply empty, repliedAt null. -/
def postContact (b : ContactBody) (now newId : Nat) (store : List Contact) :
    (Nat × List (String × String)) × List Contact :=
  let errs := contactErrors b
  if errs.isEmpty then
    ((201, []),
      store ++ [{ id := newId,
                  name := trimStr (b.name.getD ""),
                  email := lowerStr (trimStr (b.email.getD "")),
                  subject := trimStr (b.subject.getD ""),
                  message := trimStr (b.message.getD ""),
                  isRead := false, isReplied := false,
                  reply := "", repliedAt := none, createdAt := now }])
  else ((400, errs), store)

/-- PUT /api/admin/contacts/:id/read (src/routes/admin.js lines 29-44):
404 if the id is absent, otherwise set isRead true on the found document
and save. -/
def markReadContact (cid : Nat) (store : List Contact) : Nat × List Contact :=
  match store.find? (fun c => c.id == cid) with
  | none => (404, store)
  | some _ =>
    (200, updateFirst (fun c => c.id == cid)
      (fun c => { c with isRead := true }) store)

/-- PUT /api/admin/contacts/:id/reply (src/routes/admin.js lines 49-77).
The reply chain trims then requires at least one character, and this
validation runs before the lookup; 404 if the id is absent; otherwise one
update sets reply to the trimmed text, isReplied true, repliedAt to the
current time and isRead true. -/
def replyContact (cid : Nat) (replyBody : Option String) (now : Nat)
    (store : List Contact) : Nat × List Contact :=
  let text := trimStr (replyBody.getD "")
  if text.length < 1 then (400, store)
  else
    match store.find? (fun c => c.id == cid) with
    | none => (404, store)
    | some _ =>
      (200, updateFirst (fun c => c.id == cid)
        (fun c => { c with reply := text, isReplied := true,
                           repliedAt := some now, isRead := true }) store)

/-- The operations that can touch the Contact collection: public
submission, admin mark-read, admin reply.  No route deletes a contact. -/
inductive ContactOp where
  | submit (b : ContactBody) (now newId : Nat)
  | markRead (cid : Nat)
  | reply (cid : Nat) (body : Option String) (now : Nat)
deriving Repr

/-- One step of the Contact collection under an operation. -/
def applyContactOp (store : List Contact) : ContactOp → List Contact
  | .submit b now newId => (postContact b now newId store).2
  | .markRead cid => (markReadContact cid store).2
  | .reply cid body now => (replyContact cid body now store).2

/-- A whole sequence of contact operations, applied left to right. -/
def runContactOps (store : List Contact) (ops : List ContactOp) : List Contact :=
  ops.foldl applyContactOp store

/-- The Contact state-machine invariant: replied implies read. -/
def contactInv (store : List Contact) : Prop :=
  ∀ c ∈ store, c.isReplied = true → c.isRead = true

instance (store : List Contact) : Decidable (contactInv store) := by
  unfold contactInv; infer_instance

/-! ### Home documents (src/models/About.js, homeSchema variant) and the
admin upsert (src/unnamed/part_001 lines 525-577) -/

/-- A stored Home document; socialLinks is flattened to an association
list.  The schema default for isActive is true. -/
structure Home where
  id : Nat
  name : String
  title : String
  tagline : String
  bio : String
  profileImage : String
  resumeUrl : String
  socialLinks : List (String × String)
  highlights : List String
  isActive : Bool
deriving Repr, DecidableEq

/-- The request body of POST /api/admin/home. -/
structure HomeBody where
  name : Option String
  title : Option String
  tagline : Option String
  bio : Option String
deriving Repr, DecidableEq

/-- An express-validator notEmpty check (runs before the trim sanitizer of
the same chain); an absent field fails. -/
def vNotEmpty (v : Option String) : Bool :=
  match v with
  | none => false
  | some s => !s.data.isEmpty

/-- The validation errors of POST /api/admin/home in declaration order
(src/unnamed/part_001 lines 525-529): each chain has a notEmpty check and
a trimmed minimum-length check, and each failing check contributes its own
entry. -/
def homeErrors (b : HomeBody) : List (String × String) :=
  (if vNotEmpty b.name then [] else [("name", "Name is required")]) ++
  (if vMinLen b.name 2 then [] else
    [("name", "Name must be at least 2 characters")]) ++
  (if vNotEmpty b.title then [] else [("title", "Title is required")]) ++
  (if vMinLen b.title 2 then [] else
    [("title", "Title must be at least 2 characters")]) ++
  (if vNotEmpty b.tagline then [] else [("tagline", "Tagline is required")]) ++
  (if vMinLen b.tagline 5 then [] else
    [("tagline", "Tagline must be at least 5 characters")]) ++
  (if vNotEmpty b.bio then [] else [("bio", "Bio is required")]) ++
  (if vMinLen b.bio 10 then [] else
    [("bio", "Bio must be at least 10 characters")])

/-- The fixed homeData object the handler builds from the sanitized body
(src/unnamed/part_001 lines 551-560), assigned over a found document by
Object.assign: every content field is replaced, isActive is untouched. -/
def assignHomeData (b : HomeBody) (h : Home) : Home :=
  { h with name := trimStr (b.name.getD ""),
           title := trimStr (b.title.getD ""),
           tagline := trimStr (b.tagline.getD ""),
           bio := trimStr (b.bio.getD ""),
           socialLinks := [], highlights := [],
           profileImage := "/images/default-profile.jpg",
           resumeUrl := "/documents/naman-singh-resume.pdf" }

/-- The document new Home(homeData) constructs when no active singleton
exists: the homeData fields plus the schema default isActive true. -/
def newHomeDoc (b : HomeBody) (newId : Nat) : Home :=
  assignHomeData b
    { id := newId, name := "", title := "", tagline := "", bio := "",
      profileImage := "", resumeUrl := "", socialLinks := [],
      highlights := [], isActive := true }

/-- POST /api/admin/home (src/unnamed/part_001 lines 525-577): validate;
findOne on isActive true; if a document is found, Object.assign the
homeData over it and save, otherwise construct a new Home (isActive
defaulting to true) and save it. -/
def upsertHome (b : HomeBody) (newId : Nat) (store : List Home) :
    Nat × List Home :=
  if (homeErrors b).isEmpty then
    match store.find? (fun h => h.isActive) with
    | some _ => (200, updateFirst (fun h => h.isActive) (assignHomeData b) store)
    | none => (200, store ++ [newHomeDoc b newId])
  else (400, store)

/-- Number of active Home documents in the store. -/
def countActiveHomes (store : List Home) : Nat :=
  (store.filter (fun h => h.isActive)).length

/-! ### Admin project mutation routes (src/unnamed/part_001) -/

/-- DELETE /api/admin/projects/:id (src/unnamed/part_001 lines 184-199):
findById ignores isActive; 404 if the id is absent; otherwise set isActive
false on the found document, save, and respond 200. -/
def deleteProject (pid : Nat) (store : List Project) : Nat × List Project :=
  match store.find? (fun p => p.id == pid) with
  | none => (404, store)
  | some _ =>
    (200, updateFirst (fun p => p.id == pid)
      (fun p => { p with isActive := false }) store)

/-- The request body of PUT /api/admin/projects/:id (variant 1,
src/unnamed/part_001 lines 144-179).  none models an absent (or falsy)
field; the JSON-encoded sub-fields are modelled already parsed.  The
featured field arrives as a string and is compared against the string
true with strict equality; order goes through parseInt and a falsy
fallback. -/
structure ProjectBody where
  title : Option String
  description : Option String
  problemStatement : Option String
  techStack : Option (List String)
  role : Option String
  challenges : Option (List String)
  impact : Option (List (String × String) × String)
  links : Option (String × String × String)
  featured : Option String
  order : Option Int
deriving Repr, DecidableEq

/-- Mongoose save-time validation of the four required String paths of
projectSchema (src/unnamed/part_002): for a String path, required fails on
the empty string, so a title whose schema trim setter reduced it to empty,
or an empty description, problemStatement or role, rejects the save. -/
def projectRequiredOk (p : Project) : Bool :=
  !p.title.data.isEmpty && !p.description.data.isEmpty &&
    !p.problemStatement.data.isEmpty && !p.role.data.isEmpty

/-- The updateData object of PUT /api/admin/projects/:id, Object.assigned
over the found document: the four required text fields are replaced by the
submitted values, where the schema trim setter on title
(src/unnamed/part_002 lines 4-8) stores the trimmed submitted title
(description, problemStatement and role have no trim option and are stored
raw); techStack, challenges, impact and links fall back to the old
document when the submitted value is absent; featured becomes the strict
comparison of the submitted string against true; order falls back to the
old value when absent or when parseInt yields the falsy 0. -/
def applyProjectBody (b : ProjectBody) (p : Project) : Project :=
  { p with
    title := (b.title.map trimStr).getD p.title,
    description := b.description.getD p.description,
    problemStatement := b.problemStatement.getD p.problemStatement,
    techStack := b.techStack.getD p.techStack,
    role := b.role.getD p.role,
    challenges := b.challenges.getD p.challenges,
    impactMetrics := (b.impact.map Prod.fst).getD p.impactMetrics,
    impactDescription := (b.impact.map Prod.snd).getD p.impactDescription,
    linksGithub := (b.links.map (fun l => l.1)).getD p.linksGithub,
    linksLive := (b.links.map (fun l => l.2.1)).getD p.linksLive,
    linksDemo := (b.links.map (fun l => l.2.2)).getD p.linksDemo,
    featured := b.featured == some "true",
    order := match b.order with
             | some v => if v == 0 then p.order else v
             | none => p.order }

/-- PUT /api/admin/projects/:id (src/unnamed/part_001 lines 144-179):
404 if the id is absent.  Object.assign copies every updateData key over
the found document, including keys whose value is undefined; an undefined
value on a schema-required path (title, description, problemStatement,
role) then fails mongoose validation at save, which the catch block turns
into a 500 response with the store unchanged.  The save also runs the
required validators on the merged document: a submitted title whose
schema trim reduces it to the empty string, or an empty description,
problemStatement or role, fails required and likewise yields 500 with the
store unchanged.  Otherwise the document is saved with: the four text
fields replaced (title trimmed by its schema setter); techStack,
challenges, impact and links kept from the old document when omitted;
featured set to whether the submitted string equals true (hence false
when omitted); order kept when omitted or when parseInt yields a falsy
0. -/
def updateProject (pid : Nat) (b : ProjectBody) (store : List Project) :
    Nat × List Project :=
  match store.find? (fun p => p.id == pid) with
  | none => (404, store)
  | some p =>
    if b.title.isNone || b.description.isNone ||
        b.problemStatement.isNone || b.role.isNone then
      (500, store)
    else
      let merged := applyProjectBody b p
      if projectRequiredOk merged then
        (200, updateFirst (fun x => x.id == pid) (applyProjectBody b) store)
      else (500, store)

/-- The ordering the public project listing is specified to obey:
order ascending, ties broken by creation time descending. -/
def pubProjOrdered (a b : PublicProject) : Prop :=
  a.order < b.order ∨ (a.order = b.order ∧ b.createdAt ≤ a.createdAt)

/-! ### Concrete sample data, used by the witness checks -/

def sampleProject : Project :=
  { id := 1, title := "Portfolio", description := "a backend",
    problemStatement := "a problem", techStack := ["node"], role := "developer",
    challenges := [], impactMetrics := [], impactDescription := "",
    image := "/images/default-profile.jpg", linksGithub := "", linksLive := "",
    linksDemo := "", featured := true, order := 2, isActive := true,
    createdAt := 10 }

def sampleInactive : Project :=
  { sampleProject with id := 4, isActive := false }

def sampleUpdateBody : ProjectBody :=
  { title := some "Portfolio", description := some "a backend",
    problemStatement := some "a problem", techStack := none,
    role := some "developer", challenges := none, impact := none,
    links := none, featured := none, order := none }

def sampleWhitespaceBody : ProjectBody :=
  { sampleUpdateBody with title := some "   " }

def sampleContactBad : ContactBody :=
  { name := some "A", email := some "a@b.co", subject := some "hello",
    message := some "0123456789x" }

def sampleContactGood : ContactBody :=
  { name := some "Al", email := some "a@b.co", subject := some "hello",
    message := some "0123456789x" }

def sampleContact : Contact :=
  { id := 1, name := "Al", email := "a@b.co", subject := "hello",
    message := "0123456789x", isRead := false, isReplied := false,
    reply := "", repliedAt := none, createdAt := 3 }

def sampleHomeBody : HomeBody :=
  { name := some "Naman Singh", title := some "Developer",
    tagline := some "Hello there", bio := some "0123456789" }

def sampleHomeA : Home :=
  { id := 1, name := "N", title := "T", tagline := "TG", bio := "B",
    profileImage := "", resumeUrl := "", socialLinks := [], highlights := [],
    isActive := true }

def sampleHomeB : Home :=
  { sampleHomeA with id := 2 }

def sampleToken : Token :=
  { subjectId := 1, signedWith := "otherSecret", expired := false }

def sampleAdmin : AdminUser :=
  { id := 1, name := "N", email := "n@e.co", isActive := true }

/-! ## Shared lemmas about the embedding -/

theorem updateFirst_length (q : α → Bool) (f : α → α) (l : List α) :
    (updateFirst q f l).length = l.length := by
  induction l with
  | nil => rfl
  | cons x xs ih =>
    unfold updateFirst
    by_cases hq : q x <;> simp [hq, ih]

theorem updateFirst_mem_or {q : α → Bool} {f : α → α} {l : List α} {d : α}
    (hd : d ∈ updateFirst q f l) :
    d ∈ l ∨ ∃ x ∈ l, q x = true ∧ d = f x := by
  induction l with
  | nil => cases hd
  | cons x xs ih =>
    unfold updateFirst at hd
    by_cases hq : q x
    · rw [if_pos hq] at hd
      rcases List.mem_cons.mp hd with h | h
      · exact Or.inr ⟨x, List.mem_cons_self x xs, hq, h⟩
      · exact Or.inl (List.mem_cons_of_mem x h)
    · rw [if_neg hq] at hd
      rcases List.mem_cons.mp hd with h | h
      · exact Or.inl (h ▸ List.mem_cons_self x xs)
      · rcases ih h with h1 | ⟨y, hy, hqy, hdy⟩
        · exact Or.inl (List.mem_cons_of_mem x h1)
        · exact Or.inr ⟨y, List.mem_cons_of_mem x hy, hqy, hdy⟩

theorem mem_updateFirst_of_find? {q : α → Bool} {f : α → α} {l : List α} {c : α}
    (h : l.find? q = some c) : f c ∈ updateFirst q f l := by
  induction l with
  | nil => cases h
  | cons x xs ih =>
    unfold updateFirst
    by_cases hq : q x
    · rw [List.find?_cons_of_pos xs hq] at h
      rw [if_pos hq, Option.some.inj h]
      exact List.mem_cons_self _ _
    · rw [List.find?_cons_of_neg xs hq] at h
      rw [if_neg hq]
      exact List.mem_cons_of_mem x (ih h)

theorem updateFirst_eq_self {q : α → Bool} {f : α → α} {l : List α} {c : α}
    (h : l.find? q = some c) (hfix : f c = c) : updateFirst q f l = l := by
  induction l with
  | nil => rfl
  | cons x xs ih =>
    unfold updateFirst
    by_cases hq : q x
    · rw [List.find?_cons_of_pos xs hq] at h
      rw [if_pos hq, Option.some.inj h, hfix]
    · rw [List.find?_cons_of_neg xs hq] at h
      rw [if_neg hq, ih h]

theorem find?_updateFirst {q : α → Bool} {f : α → α} {l : List α} {c : α}
    (h : l.find? q = some c) (hf : q (f c) = true) :
    (updateFirst q f l).find? q = some (f c) := by
  induction l with
  | nil => cases h
  | cons x xs ih =>
    unfold updateFirst
    by_cases hq : q x
    · rw [List.find?_cons_of_pos xs hq] at h
      rw [if_pos hq, ← Option.some.inj h]
      exact List.find?_cons_of_pos _ (Option.some.inj h ▸ hf)
    · rw [List.find?_cons_of_neg xs hq] at h
      rw [if_neg hq]
      rw [List.find?_cons_of_neg _ hq]
      exact ih h

theorem updateFirst_map_eq {q : α → Bool} {f : α → α} (k : α → β)
    (hf : ∀ x, q x = true → k (f x) = k x) (l : List α) :
    (updateFirst q f l).map k = l.map k := by
  induction l with
  | nil => rfl
  | cons x xs ih =>
    unfold updateFirst
    by_cases hq : q x
    · rw [if_pos hq]
      simp [hf x hq]
    · rw [if_neg hq]
      simp [ih]

/-- In a store whose documents have pairwise distinct ids, membership plus
an id match pins down the document. -/
theorem project_eq_of_id_eq {store : List Project}
    (h : store.Pairwise (fun a b => a.id ≠ b.id)) {p q : Project}
    (hp : p ∈ store) (hq : q ∈ store) (heq : p.id = q.id) : p = q := by
  induction store with
  | nil => cases hp
  | cons x xs ih =>
    rw [List.pairwise_cons] at h
    rcases List.mem_cons.mp hp with hp1 | hp1 <;>
      rcases List.mem_cons.mp hq with hq1 | hq1
    · rw [hp1, hq1]
    · subst hp1; exact absurd heq (h.1 q hq1)
    · subst hq1; exact absurd heq.symm (h.1 p hp1)
    · exact ih h.2 hp1 hq1

/-- Every record the public listing returns originates in a stored record
that passes the Mongo query. -/
theorem mem_publicList_sources {featuredQ : Option String}
    {store : List Project} {q : PublicProject}
    (hq : q ∈ publicListProjects featuredQ store) :
    ∃ r ∈ store, projectQuery featuredQ r = true ∧ q = stripIsActive r := by
  unfold publicListProjects at hq
  rcases List.mem_map.mp hq with ⟨r, hr, hrq⟩
  have hmem : r ∈ store.filter (projectQuery featuredQ) :=
    (List.mergeSort_perm (store.filter (projectQuery featuredQ)) projLE).mem_iff.mp hr
  rcases List.mem_filter.mp hmem with ⟨hrs, hrquery⟩
  exact ⟨r, hrs, hrquery, hrq.symm⟩

theorem projectQuery_isActive {featuredQ : Option String} {r : Project}
    (h : projectQuery featuredQ r = true) : r.isActive = true := by
  unfold projectQuery at h
  split at h
  · simp only [Bool.and_eq_true] at h
    exact h.1
  · exact h

theorem projectQuery_featured {r : Project}
    (h : projectQuery (some "true") r = true) : r.featured = true := by
  simp [projectQuery] at h
  exact h.2

theorem projLE_trans : ∀ a b c : Project,
    projLE a b = true → projLE b c = true → projLE a c = true := by
  intro a b c hab hbc
  unfold projLE at *
  simp only [Bool.or_eq_true, Bool.and_eq_true, decide_eq_true_eq,
    beq_iff_eq] at *
  omega

theorem projLE_total : ∀ a b : Project, (projLE a b || projLE b a) = true := by
  intro a b
  unfold projLE
  simp only [Bool.or_eq_true, Bool.and_eq_true, decide_eq_true_eq,
    beq_iff_eq]
  omega

/-! ## Claim theorems -/

/-- C1: for every Project record with isActive false, the public list
endpoint (with or without the featured filter) never includes it, and the
public single-fetch endpoint responds 404 (modelled as none) for its id,
the same as for an id that exists nowhere in the store. -/
theorem inactive_projects_hidden_from_public
    (store : List Project) (p : Project)
    (hids : store.Pairwise (fun a b => a.id ≠ b.id))
    (hp : p ∈ store) (hinact : p.isActive = false) :
    (∀ featuredQ, ∀ q ∈ publicListProjects featuredQ store, q.id ≠ p.id) ∧
    publicGetProject p.id store = none ∧
    (∀ missing : Nat, (∀ x ∈ store, x.id ≠ missing) →
      publicGetProject missing store = none) := by
  refine ⟨?_, ?_, ?_⟩
  · intro featuredQ q hq hqid
    rcases mem_publicList_sources hq with ⟨r, hrs, hrquery, hrq⟩
    have hract : r.isActive = true := projectQuery_isActive hrquery
    have hrid : r.id = p.id := by rw [hrq] at hqid; exact hqid
    have : r = p := project_eq_of_id_eq hids hrs hp hrid
    rw [this, hinact] at hract
    cases hract
  · unfold publicGetProject
    have hnone : store.find? (fun x => x.id == p.id && x.isActive) = none := by
      rw [List.find?_eq_none]
      intro x hx hxp
      simp only [Bool.and_eq_true, beq_iff_eq] at hxp
      have : x = p := project_eq_of_id_eq hids hx hp hxp.1
      rw [this, hinact] at hxp
      exact Bool.false_ne_true hxp.2
    rw [hnone]
    rfl
  · intro missing hmissing
    unfold publicGetProject
    have hnone : store.find? (fun x => x.id == missing && x.isActive) = none := by
      rw [List.find?_eq_none]
      intro x hx hxp
      simp only [Bool.and_eq_true, beq_iff_eq] at hxp
      exact hmissing x hx hxp.1
    rw [hnone]
    rfl

/-- C1 witness at a one-element store holding an inactive project. -/
theorem inactive_projects_hidden_from_public_witness :
    (∀ featuredQ, ∀ q ∈ publicListProjects featuredQ [sampleInactive],
      q.id ≠ sampleInactive.id) ∧
    publicGetProject sampleInactive.id [sampleInactive] = none ∧
    (∀ missing : Nat, (∀ x ∈ [sampleInactive], x.id ≠ missing) →
      publicGetProject missing [sampleInactive] = none) :=
  inactive_projects_hidden_from_public [sampleInactive] sampleInactive
    (by simp) (by simp) (by decide)

/-- C2: the public project listing is a permutation of the stored records
passing the query projected through stripIsActive (whose output type has
no isActive field), it is sorted by order ascending with ties broken by
creation time descending, and under featured equal to the string true
every returned record has featured true. -/
theorem public_project_listing_spec
    (featuredQ : Option String) (store : List Project) :
    List.Pairwise pubProjOrdered (publicListProjects featuredQ store) ∧
    (publicListProjects featuredQ store).Perm
      ((store.filter (projectQuery featuredQ)).map stripIsActive) ∧
    (featuredQ = some "true" →
      ∀ q ∈ publicListProjects featuredQ store, q.featured = true) ∧
    (∀ q ∈ publicListProjects featuredQ store,
      ∃ r ∈ store, r.isActive = true ∧ q = stripIsActive r) := by
  refine ⟨?_, ?_, ?_, ?_⟩
  · have hs := List.sorted_mergeSort projLE_trans projLE_total
      (store.filter (projectQuery featuredQ))
    unfold publicListProjects
    refine List.Pairwise.map stripIsActive ?_ hs
    intro a b hab
    unfold projLE at hab
    simp only [Bool.or_eq_true, Bool.and_eq_true, decide_eq_true_eq,
      beq_iff_eq] at hab
    exact hab
  · unfold publicListProjects
    exact (List.mergeSort_perm (store.filter (projectQuery featuredQ))
      projLE).map stripIsActive
  · intro hft q hq
    subst hft
    rcases mem_publicList_sources hq with ⟨r, _, hrquery, hrq⟩
    rw [hrq]
    exact projectQuery_featured hrquery
  · intro q hq
    rcases mem_publicList_sources hq with ⟨r, hrs, hrquery, hrq⟩
    exact ⟨r, hrs, projectQuery_isActive hrquery, hrq⟩

/-- C2 witness at a concrete two-element store with the featured filter
switched on. -/
theorem public_project_listing_spec_witness :
    List.Pairwise pubProjOrdered
      (publicListProjects (some "true") [sampleProject, sampleInactive]) ∧
    (publicListProjects (some "true") [sampleProject, sampleInactive]).Perm
      (([sampleProject, sampleInactive].filter
        (projectQuery (some "true"))).map stripIsActive) ∧
    (some "true" = some "true" →
      ∀ q ∈ publicListProjects (some "true") [sampleProject, sampleInactive],
        q.featured = true) ∧
    (∀ q ∈ publicListProjects (some "true") [sampleProject, sampleInactive],
      ∃ r ∈ [sampleProject, sampleInactive],
        r.isActive = true ∧ q = stripIsActive r) :=
  public_project_listing_spec (some "true") [sampleProject, sampleInactive]

/-- C3 counterexample: with NODE_ENV unset, a request to an admin route
carrying no bearer token is admitted by the development bypass, so the
response is not 401 - refuting the claim that every admin request without
a token yields 401. -/
theorem admin_no_token_not_always_401 :
    authMiddleware none "secret" none [] ≠ AuthResult.denied401 := by
  decide

/-- C3 amended: whenever NODE_ENV is set to a value other than
development, a missing token yields 401, a token signed with a different
secret yields 401 (not 500), an expired token yields 401, and a token
whose subject matches no admin or an inactive admin yields 401. -/
theorem admin_auth_rejections_production
    (nodeEnv : Option String) (secret : String) (bearer : Option Token)
    (admins : List AdminUser)
    (hset : nodeEnv ≠ none) (hdev : nodeEnv ≠ some "development") :
    (bearer = none →
      authMiddleware nodeEnv secret bearer admins = AuthResult.denied401) ∧
    (∀ t, bearer = some t → t.signedWith ≠ secret →
      authMiddleware nodeEnv secret bearer admins = AuthResult.denied401) ∧
    (∀ t, bearer = some t → t.expired = true →
      authMiddleware nodeEnv secret bearer admins = AuthResult.denied401) ∧
    (∀ t, bearer = some t → (∀ a ∈ admins, a.id ≠ t.subjectId) →
      authMiddleware nodeEnv secret bearer admins = AuthResult.denied401) ∧
    (∀ t a, bearer = some t →
      admins.find? (fun x => x.id == t.subjectId) = some a →
      a.isActive = false →
      authMiddleware nodeEnv secret bearer admins = AuthResult.denied401) := by
  have hcond : (nodeEnv == none || nodeEnv == some "development") = false := by
    cases nodeEnv with
    | none => exact absurd rfl hset
    | some s =>
      have hs : s ≠ "development" := fun h => hdev (by rw [h])
      simp [hs]
  refine ⟨?_, ?_, ?_, ?_, ?_⟩
  · intro hb
    subst hb
    simp [authMiddleware, hcond]
  · intro t hb hsig
    subst hb
    simp only [authMiddleware, hcond, Bool.false_eq_true, if_false]
    have : jwtVerify t secret = none := by
      unfold jwtVerify
      simp [hsig]
    rw [this]
  · intro t hb hexp
    subst hb
    simp only [authMiddleware, hcond, Bool.false_eq_true, if_false]
    have : jwtVerify t secret = none := by
      unfold jwtVerify
      simp [hexp]
    rw [this]
  · intro t hb hnoadmin
    subst hb
    simp only [authMiddleware, hcond, Bool.false_eq_true, if_false]
    cases hv : jwtVerify t secret with
    | none => rfl
    | some sub =>
      have hsub : sub = t.subjectId := by
        unfold jwtVerify at hv
        split at hv
        · exact (Option.some.inj hv).symm
        · cases hv
      subst hsub
      have hfind : admins.find? (fun x => x.id == t.subjectId) = none := by
        rw [List.find?_eq_none]
        intro a ha hpa
        simp only [beq_iff_eq] at hpa
        exact hnoadmin a ha hpa
      simp [hfind]
  · intro t a hb hfind hainact
    subst hb
    simp only [authMiddleware, hcond, Bool.false_eq_true, if_false]
    cases hv : jwtVerify t secret with
    | none => rfl
    | some sub =>
      have hsub : sub = t.subjectId := by
        unfold jwtVerify at hv
        split at hv
        · exact (Option.some.inj hv).symm
        · cases hv
      subst hsub
      simp [hfind, hainact]

/-- C3 witness: in production mode, a missing token and a token signed
with the wrong secret are both rejected with 401. -/
theorem admin_auth_rejections_production_witness :
    authMiddleware (some "production") "secret" none [sampleAdmin] =
      AuthResult.denied401 ∧
    authMiddleware (some "production") "secret" (some sampleToken)
      [sampleAdmin] = AuthResult.denied401 := by
  constructor
  · exact (admin_auth_rejections_production (some "production") "secret" none
      [sampleAdmin] (by decide) (by decide)).1 rfl
  · exact (admin_auth_rejections_production (some "production") "secret"
      (some sampleToken) [sampleAdmin] (by decide) (by decide)).2.1
      sampleToken rfl (by decide)

/-- C10: when NODE_ENV is unset or equals development, the auth
middleware attaches the synthetic dev-admin identity and admits every
request, never producing 401, regardless of the Authorization header and
of the stored admins; the token verification branch is therefore only
reachable when NODE_ENV is set to another value. -/
theorem auth_dev_bypass
    (nodeEnv : Option String) (secret : String) (bearer : Option Token)
    (admins : List AdminUser)
    (h : nodeEnv = none ∨ nodeEnv = some "development") :
    authMiddleware nodeEnv secret bearer admins =
      AuthResult.granted "dev-admin" "Dev Admin" "dev@example.com" ∧
    authMiddleware nodeEnv secret bearer admins ≠ AuthResult.denied401 := by
  have hcond : (nodeEnv == none || nodeEnv == some "development") = true := by
    rcases h with h | h <;> subst h <;> simp
  constructor
  · simp [authMiddleware, hcond]
  · simp [authMiddleware, hcond]

/-- C10 witness with NODE_ENV unset and no Authorization header. -/
theorem auth_dev_bypass_witness :
    authMiddleware none "secret" (some sampleToken) [sampleAdmin] =
      AuthResult.granted "dev-admin" "Dev Admin" "dev@example.com" ∧
    authMiddleware none "secret" (some sampleToken) [sampleAdmin] ≠
      AuthResult.denied401 :=
  auth_dev_bypass none "secret" (some sampleToken) [sampleAdmin] (Or.inl rfl)

/-- C4: a contact submission whose name trims to a single character is
rejected with 400 and a field error on name; the 400 error list carries an
entry for every failing field, not only the first; and a submission
passing all four validators is accepted with 201 and persisted with
isRead false and isReplied false. -/
theorem contact_validation_and_persistence
    (b : ContactBody) (now newId : Nat) (store : List Contact) :
    (∀ s, b.name = some s → (trimStr s).length = 1 →
      (postContact b now newId store).1.1 = 400 ∧
      ∃ m, ("name", m) ∈ (postContact b now newId store).1.2) ∧
    ((vMinLen b.name 2 = false → ∃ m, ("name", m) ∈ contactErrors b) ∧
     (vEmail b.email = false → ∃ m, ("email", m) ∈ contactErrors b) ∧
     (vMinLen b.subject 5 = false → ∃ m, ("subject", m) ∈ contactErrors b) ∧
     (vMinLen b.message 10 = false → ∃ m, ("message", m) ∈ contactErrors b)) ∧
    (vMinLen b.name 2 = true → vEmail b.email = true →
     vMinLen b.subject 5 = true → vMinLen b.message 10 = true →
      (postContact b now newId store).1.1 = 201 ∧
      ∃ c : Contact, (postContact b now newId store).2 = store ++ [c] ∧
        c.isRead = false ∧ c.isReplied = false) := by
  refine ⟨?_, ⟨?_, ?_, ?_, ?_⟩, ?_⟩
  · intro s hs hlen
    have hv : vMinLen b.name 2 = false := by
      simp [vMinLen, hs, hlen]
    constructor
    · simp [postContact, contactErrors, hv]
    · exact ⟨"Name must be at least 2 characters",
        by simp [postContact, contactErrors, hv]⟩
  · intro h
    exact ⟨"Name must be at least 2 characters", by simp [contactErrors, h]⟩
  · intro h
    exact ⟨"Please provide a valid email", by simp [contactErrors, h]⟩
  · intro h
    exact ⟨"Subject must be at least 5 characters", by simp [contactErrors, h]⟩
  · intro h
    exact ⟨"Message must be at least 10 characters", by simp [contactErrors, h]⟩
  · intro h1 h2 h3 h4
    have he : contactErrors b = [] := by
      simp [contactErrors, h1, h2, h3, h4]
    constructor
    · simp [postContact, he]
    · refine ⟨{ id := newId,
                name := trimStr (b.name.getD ""),
                email := lowerStr (trimStr (b.email.getD "")),
                subject := trimStr (b.subject.getD ""),
                message := trimStr (b.message.getD ""),
                isRead := false, isReplied := false,
                reply := "", repliedAt := none, createdAt := now },
        ?_, rfl, rfl⟩
      simp [postContact, he]

/-- C4 witness: the sample one-character name is rejected with a name
error, the sample valid body is accepted with 201. -/
theorem contact_validation_and_persistence_witness :
    (postContact sampleContactBad 0 1 []).1.1 = 400 ∧
    (∃ m, ("name", m) ∈ (postContact sampleContactBad 0 1 []).1.2) ∧
    (postContact sampleContactGood 0 1 []).1.1 = 201 := by
  have h1 := (contact_validation_and_persistence sampleContactBad 0 1 []).1
    "A" rfl (by decide)
  have h2 := (contact_validation_and_persistence sampleContactGood 0 1
    []).2.2 (by decide) (by decide) (by decide) (by decide)
  exact ⟨h1.1, h1.2, h2.1⟩

/-- C5: for an existing contact, a reply whose text trims to the empty
string is rejected with 400 and leaves the store unchanged; otherwise the
response is 200 and one update sets the trimmed reply text, isReplied
true, isRead true and repliedAt to the current time on that contact,
leaving its other fields and every other document untouched. -/
theorem reply_contact_spec
    (store : List Contact) (cid now : Nat) (replyBody : Option String)
    (c : Contact) (hfind : store.find? (fun x => x.id == cid) = some c) :
    (trimStr (replyBody.getD "") = "" →
      replyContact cid replyBody now store = (400, store)) ∧
    (trimStr (replyBody.getD "") ≠ "" →
      (replyContact cid replyBody now store).1 = 200 ∧
      (replyContact cid replyBody now store).2.length = store.length ∧
      (∃ d ∈ (replyContact cid replyBody now store).2,
        d.id = c.id ∧ d.name = c.name ∧ d.email = c.email ∧
        d.subject = c.subject ∧ d.message = c.message ∧
        d.createdAt = c.createdAt ∧
        d.reply = trimStr (replyBody.getD "") ∧ d.isReplied = true ∧
        d.isRead = true ∧ d.repliedAt = some now) ∧
      (∀ d ∈ (replyContact cid replyBody now store).2,
        d ∈ store ∨ d.id = c.id)) := by
  have hcid : c.id = cid := by
    have := List.find?_some hfind
    simpa using this
  constructor
  · intro h
    simp [replyContact, h]
  · intro hne
    have hlen1 : ¬ (trimStr (replyBody.getD "")).length < 1 := by
      intro hlt
      apply hne
      apply String.ext
      have h0 : (trimStr (replyBody.getD "")).data.length = 0 :=
        Nat.lt_one_iff.mp hlt
      exact List.length_eq_zero.mp h0
    have hred : replyContact cid replyBody now store =
        (200, updateFirst (fun x => x.id == cid)
          (fun x => { x with reply := trimStr (replyBody.getD ""),
                             isReplied := true, repliedAt := some now,
                             isRead := true }) store) := by
      simp only [replyContact]
      rw [if_neg hlen1, hfind]
    refine ⟨by rw [hred], ?_, ?_, ?_⟩
    · rw [hred]
      exact updateFirst_length _ _ store
    · rw [hred]
      exact ⟨_, mem_updateFirst_of_find? hfind,
        rfl, rfl, rfl, rfl, rfl, rfl, rfl, rfl, rfl, rfl⟩
    · intro d hd
      rw [hred] at hd
      rcases updateFirst_mem_or hd with h | ⟨x, _, hqx, hdx⟩
      · exact Or.inl h
      · right
        have hxid : x.id = cid := by simpa using hqx
        rw [hdx, hcid]
        exact hxid

/-- C5 witness: replying to the sample contact with nonempty text gives
200, and with blank text gives 400 leaving the store unchanged. -/
theorem reply_contact_spec_witness :
    (replyContact 1 (some " ok ") 5 [sampleContact]).1 = 200 ∧
    replyContact 1 (some "  ") 5 [sampleContact] = (400, [sampleContact]) := by
  have h1 := (reply_contact_spec [sampleContact] 1 5 (some " ok ")
    sampleContact (by decide)).2 (by decide)
  have h2 := (reply_contact_spec [sampleContact] 1 5 (some "  ")
    sampleContact (by decide)).1 (by decide)
  exact ⟨h1.1, h2⟩

theorem contactInv_updateFirst {q : Contact → Bool} {f : Contact → Contact}
    {store : List Contact} (h : contactInv store)
    (hf : ∀ x, (f x).isReplied = true → (f x).isRead = true) :
    contactInv (updateFirst q f store) := by
  intro d hd
  rcases updateFirst_mem_or hd with hmem | ⟨x, _, _, hdx⟩
  · exact h d hmem
  · rw [hdx]; exact hf x

theorem exists_id_of_updateFirst {q : Contact → Bool} {f : Contact → Contact}
    (hf : ∀ x, (f x).id = x.id) {store : List Contact} {c : Contact}
    (hc : c ∈ store) : ∃ d ∈ updateFirst q f store, d.id = c.id := by
  have hmap : (updateFirst q f store).map (fun x => x.id) =
      store.map (fun x => x.id) :=
    updateFirst_map_eq _ (fun x _ => hf x) store
  have hmem : c.id ∈ (updateFirst q f store).map (fun x => x.id) := by
    rw [hmap]
    exact List.mem_map_of_mem _ hc
  rcases List.mem_map.mp hmem with ⟨d, hd, hdid⟩
  exact ⟨d, hd, hdid⟩

theorem contactInv_applyOp {store : List Contact} (h : contactInv store)
    (op : ContactOp) : contactInv (applyContactOp store op) := by
  cases op with
  | submit b now newId =>
    simp only [applyContactOp, postContact]
    split
    · intro c hc
      rcases List.mem_append.mp hc with hmem | hmem
      · exact h c hmem
      · intro hrep
        simp at hmem
        rw [hmem] at hrep
        cases hrep
    · exact h
  | markRead cid =>
    simp only [applyContactOp, markReadContact]
    cases hf : store.find? (fun x => x.id == cid) with
    | none => exact h
    | some e => exact contactInv_updateFirst h (fun x _ => rfl)
  | reply cid body now =>
    simp only [applyContactOp, replyContact]
    split
    · exact h
    · cases hf : store.find? (fun x => x.id == cid) with
      | none => exact h
      | some e => exact contactInv_updateFirst h (fun x _ => rfl)

theorem ids_preserved_applyOp (store : List Contact) (op : ContactOp) :
    ∀ c ∈ store, ∃ d ∈ applyContactOp store op, d.id = c.id := by
  intro c hc
  cases op with
  | submit b now newId =>
    simp only [applyContactOp, postContact]
    split
    · exact ⟨c, List.mem_append_left _ hc, rfl⟩
    · exact ⟨c, hc, rfl⟩
  | markRead cid =>
    simp only [applyContactOp, markReadContact]
    cases hf : store.find? (fun x => x.id == cid) with
    | none => exact ⟨c, hc, rfl⟩
    | some e =>
      show ∃ d ∈ updateFirst (fun x => x.id == cid)
          (fun y => { y with isRead := true }) store, d.id = c.id
      refine exists_id_of_updateFirst ?_ hc
      exact fun x => rfl
  | reply cid body now =>
    simp only [applyContactOp, replyContact]
    split
    · exact ⟨c, hc, rfl⟩
    · cases hf : store.find? (fun x => x.id == cid) with
      | none => exact ⟨c, hc, rfl⟩
      | some e =>
        show ∃ d ∈ updateFirst (fun x => x.id == cid)
            (fun y => { y with reply := trimStr (body.getD ""),
                               isReplied := true, repliedAt := some now,
                               isRead := true }) store, d.id = c.id
        refine exists_id_of_updateFirst ?_ hc
        exact fun x => rfl

theorem contactInv_runOps (ops : List ContactOp) :
    ∀ store, contactInv store → contactInv (runContactOps store ops) := by
  induction ops with
  | nil => exact fun store h => h
  | cons op rest ih =>
    intro store h
    exact ih (applyContactOp store op) (contactInv_applyOp h op)

theorem ids_preserved_runOps (ops : List ContactOp) :
    ∀ store, ∀ c ∈ store, ∃ d ∈ runContactOps store ops, d.id = c.id := by
  induction ops with
  | nil => exact fun store c hc => ⟨c, hc, rfl⟩
  | cons op rest ih =>
    intro store c hc
    rcases ids_preserved_applyOp store op c hc with ⟨d, hd, hdid⟩
    rcases ih (applyContactOp store op) d hd with ⟨e, he, heid⟩
    exact ⟨e, he, heid.trans hdid⟩

/-- C6: every sequence of contact operations preserves the invariant that
isReplied implies isRead; no operation removes a contact (every stored id
survives); a freshly submitted contact starts with isRead false and
isReplied false; mark-read changes no isReplied value, so read can be set
independently of replied; and the reply route preserves the invariant
(it always forces isRead true together with isReplied). -/
theorem contact_state_machine
    (ops : List ContactOp) (store : List Contact) (hinv : contactInv store) :
    contactInv (runContactOps store ops) ∧
    (∀ c ∈ store, ∃ d ∈ runContactOps store ops, d.id = c.id) ∧
    (∀ b now newId, ∀ c ∈ (postContact b now newId store).2,
      c ∈ store ∨ (c.isRead = false ∧ c.isReplied = false)) ∧
    (∀ cid, (markReadContact cid store).2.map (fun c => (c.id, c.isReplied)) =
      store.map (fun c => (c.id, c.isReplied))) ∧
    (∀ cid body now, contactInv (replyContact cid body now store).2) := by
  refine ⟨contactInv_runOps ops store hinv,
    ids_preserved_runOps ops store, ?_, ?_, ?_⟩
  · intro b now newId c hc
    simp only [postContact] at hc
    split at hc
    · rcases List.mem_append.mp hc with hmem | hmem
      · exact Or.inl hmem
      · simp at hmem
        rw [hmem]
        exact Or.inr ⟨rfl, rfl⟩
    · exact Or.inl hc
  · intro cid
    simp only [markReadContact]
    cases hf : store.find? (fun x => x.id == cid) with
    | none => rfl
    | some e =>
      show (updateFirst (fun x => x.id == cid)
          (fun y => { y with isRead := true }) store).map
            (fun c => (c.id, c.isReplied)) =
          store.map (fun c => (c.id, c.isReplied))
      refine updateFirst_map_eq _ ?_ store
      exact fun x h => rfl
  · intro cid body now
    have := contactInv_applyOp hinv (ContactOp.reply cid body now)
    exact this

/-- C6 witness: a mark-read then a reply on the sample store keep the
invariant. -/
theorem contact_state_machine_witness :
    contactInv (runContactOps [sampleContact]
      [ContactOp.markRead 1, ContactOp.reply 1 (some "ok") 5]) :=
  (contact_state_machine [ContactOp.markRead 1, ContactOp.reply 1 (some "ok") 5]
    [sampleContact] (by decide)).1

theorem countActiveHomes_append (l1 l2 : List Home) :
    countActiveHomes (l1 ++ l2) = countActiveHomes l1 + countActiveHomes l2 := by
  unfold countActiveHomes
  rw [List.filter_append, List.length_append]

theorem countActiveHomes_updateFirst (b : HomeBody) (store : List Home) :
    countActiveHomes (updateFirst (fun h => h.isActive)
      (assignHomeData b) store) = countActiveHomes store := by
  induction store with
  | nil => rfl
  | cons x xs ih =>
    unfold updateFirst
    by_cases hx : x.isActive
    · rw [if_pos hx]
      unfold countActiveHomes at *
      simp only [List.filter_cons]
      have hax : (assignHomeData b x).isActive = true := hx
      rw [hax, hx]
      simp
    · rw [if_neg hx]
      unfold countActiveHomes at *
      simp only [List.filter_cons]
      rw [Bool.of_not_eq_true hx]
      simpa using ih

theorem upsertHome_active_exists (b : HomeBody) (newId : Nat)
    (store : List Home) (hvalid : (homeErrors b).isEmpty = true) :
    ∃ x ∈ (upsertHome b newId store).2, x.isActive = true := by
  unfold upsertHome
  rw [if_pos hvalid]
  cases hf : store.find? (fun h => h.isActive) with
  | none =>
    exact ⟨newHomeDoc b newId,
      List.mem_append_right _ (List.mem_singleton.mpr rfl), rfl⟩
  | some h =>
    have hh : h.isActive = true := List.find?_some hf
    exact ⟨assignHomeData b h, mem_updateFirst_of_find? hf, hh⟩

theorem upsertHome_update_branch (b : HomeBody) (newId : Nat)
    (store : List Home) (hvalid : (homeErrors b).isEmpty = true)
    (hact : ∃ x ∈ store, x.isActive = true) :
    (upsertHome b newId store).2 =
      updateFirst (fun h => h.isActive) (assignHomeData b) store := by
  unfold upsertHome
  rw [if_pos hvalid]
  have hsome : (store.find? (fun h => h.isActive)).isSome := by
    rw [List.find?_isSome]
    rcases hact with ⟨x, hx, hxa⟩
    exact ⟨x, hx, hxa⟩
  cases hf : store.find? (fun h => h.isActive) with
  | none => rw [hf] at hsome; cases hsome
  | some h => rfl

theorem countActiveHomes_upsert (b : HomeBody) (newId : Nat)
    (store : List Home) (hvalid : (homeErrors b).isEmpty = true) :
    countActiveHomes (upsertHome b newId store).2 =
      if countActiveHomes store = 0 then 1 else countActiveHomes store := by
  unfold upsertHome
  rw [if_pos hvalid]
  cases hf : store.find? (fun h => h.isActive) with
  | none =>
    have h0 : countActiveHomes store = 0 := by
      unfold countActiveHomes
      rw [List.length_eq_zero, List.filter_eq_nil_iff]
      intro a ha
      have := List.find?_eq_none.mp hf a ha
      simpa using this
    show countActiveHomes (store ++ [newHomeDoc b newId]) =
      if countActiveHomes store = 0 then 1 else countActiveHomes store
    rw [countActiveHomes_append, h0, if_pos rfl]
    rfl
  | some h =>
    have hh : h.isActive = true := List.find?_some hf
    have hmem : h ∈ store := List.mem_of_find?_eq_some hf
    have hpos : countActiveHomes store ≠ 0 := by
      intro hzero
      have hfil : h ∈ store.filter (fun x => x.isActive) :=
        List.mem_filter.mpr ⟨hmem, hh⟩
      unfold countActiveHomes at hzero
      rw [List.length_eq_zero] at hzero
      rw [hzero] at hfil
      cases hfil
    show countActiveHomes (updateFirst (fun x => x.isActive)
      (assignHomeData b) store) =
      if countActiveHomes store = 0 then 1 else countActiveHomes store
    rw [countActiveHomes_updateFirst, if_neg hpos]

/-- C7 counterexample: starting from a store that already holds two active
Home documents, two consecutive valid upserts leave two active documents,
not exactly one - refuting the claim as stated for every store state. -/
theorem home_upsert_not_singleton_counterexample :
    countActiveHomes ((upsertHome sampleHomeBody 7
      ((upsertHome sampleHomeBody 6 [sampleHomeA, sampleHomeB]).2)).2) = 2 ∧
    countActiveHomes ((upsertHome sampleHomeBody 7
      ((upsertHome sampleHomeBody 6 [sampleHomeA, sampleHomeB]).2)).2) ≠ 1 :=
  ⟨by decide, by decide⟩

/-- C7 amended: for a valid body, the second of two consecutive upserts
always updates rather than inserts (the store size does not change), and
when the store starts with at most one active Home document - in
particular from the empty store - two consecutive upserts leave exactly
one active document. -/
theorem home_upsert_singleton
    (b : HomeBody) (n1 n2 : Nat) (store : List Home)
    (hvalid : (homeErrors b).isEmpty = true) :
    ((upsertHome b n2 ((upsertHome b n1 store).2)).2).length =
      ((upsertHome b n1 store).2).length ∧
    (countActiveHomes store ≤ 1 →
      countActiveHomes ((upsertHome b n2 ((upsertHome b n1 store).2)).2) = 1) := by
  have hact1 : ∃ x ∈ (upsertHome b n1 store).2, x.isActive = true :=
    upsertHome_active_exists b n1 store hvalid
  have hbranch2 : (upsertHome b n2 ((upsertHome b n1 store).2)).2 =
      updateFirst (fun h => h.isActive) (assignHomeData b)
        ((upsertHome b n1 store).2) :=
    upsertHome_update_branch b n2 ((upsertHome b n1 store).2) hvalid hact1
  constructor
  · rw [hbranch2]
    exact updateFirst_length _ _ _
  · intro hle
    rw [hbranch2, countActiveHomes_updateFirst,
      countActiveHomes_upsert b n1 store hvalid]
    split <;> omega

/-- C7 witness: from the empty store, the second upsert updates in place
and exactly one active Home document remains. -/
theorem home_upsert_singleton_witness :
    ((upsertHome sampleHomeBody 2 ((upsertHome sampleHomeBody 1 []).2)).2).length =
      ((upsertHome sampleHomeBody 1 []).2).length ∧
    (countActiveHomes ([] : List Home) ≤ 1 →
      countActiveHomes ((upsertHome sampleHomeBody 2
        ((upsertHome sampleHomeBody 1 []).2)).2) = 1) :=
  home_upsert_singleton sampleHomeBody 1 2 [] (by decide)

theorem project_setInactive_self {p : Project} (h : p.isActive = false) :
    ({ p with isActive := false } : Project) = p := by
  rcases p with ⟨i, t, d, ps, ts, r, ch, im, ides, img, lg, ll, ld, f, o, a, ca⟩
  have h2 : a = false := h
  subst h2
  rfl

/-- C8: on a store containing the target id, the soft-delete endpoint
responds 200; if the found record is already inactive the store is left
completely unchanged; and running the delete a second time returns 200
with the state produced by the first delete unchanged, so the second call
is observationally identical to the first. -/
theorem soft_delete_idempotent
    (store : List Project) (pid : Nat) (c : Project)
    (hfind : store.find? (fun p => p.id == pid) = some c) :
    (deleteProject pid store).1 = 200 ∧
    (c.isActive = false → deleteProject pid store = (200, store)) ∧
    deleteProject pid ((deleteProject pid store).2) =
      (200, (deleteProject pid store).2) := by
  have hq := List.find?_some hfind
  have hred : deleteProject pid store =
      (200, updateFirst (fun p => p.id == pid)
        (fun p => { p with isActive := false }) store) := by
    unfold deleteProject
    rw [hfind]
  refine ⟨by rw [hred], ?_, ?_⟩
  · intro hinact
    rw [hred, updateFirst_eq_self hfind (project_setInactive_self hinact)]
  · set s2 := (deleteProject pid store).2 with hs2
    have hfind2 : s2.find? (fun p => p.id == pid) =
        some ({ c with isActive := false }) := by
      rw [hs2, hred]
      exact find?_updateFirst hfind hq
    have hred2 : deleteProject pid s2 =
        (200, updateFirst (fun p => p.id == pid)
          (fun p => { p with isActive := false }) s2) := by
      unfold deleteProject
      rw [hfind2]
    rw [hred2, updateFirst_eq_self hfind2 rfl]

/-- C8 witness: deleting the already-inactive sample project returns 200
and leaves the store unchanged. -/
theorem soft_delete_idempotent_witness :
    (deleteProject 4 [sampleInactive]).1 = 200 ∧
    deleteProject 4 [sampleInactive] = (200, [sampleInactive]) := by
  have h := soft_delete_idempotent [sampleInactive] 4 sampleInactive (by decide)
  exact ⟨h.1, h.2.1 rfl⟩

/-- C9 counterexample: updating the sample project (featured true) with a
body that submits the four text fields but omits featured succeeds with
200 and stores featured false - the omitted featured flag is reset, not
preserved, refuting the claim. -/
theorem update_project_resets_omitted_featured :
    sampleProject.featured = true ∧
    sampleUpdateBody.featured = none ∧
    (updateProject 1 sampleUpdateBody [sampleProject]).1 = 200 ∧
    (updateProject 1 sampleUpdateBody [sampleProject]).2.map
      (fun p => p.featured) = [false] :=
  ⟨rfl, rfl, by decide, by decide⟩

/-- C9 amended: the update endpoint responds 404 when the id is absent;
when found, a request omitting any of title, description,
problemStatement or role fails with 500 (mongoose required validation at
save) leaving the store unchanged, and so does a merged document failing a
required validator - in particular a whitespace-only title, which the
schema trim setter reduces to empty; otherwise it responds 200 and
merges: the submitted title is stored trimmed, description,
problemStatement and role are stored as submitted, techStack, challenges,
impact, links and order are preserved when omitted, the untouched image
and creation time are kept, but featured is set to whether the submitted
string equals true, hence reset to false when omitted. -/
theorem update_project_merge_semantics
    (store : List Project) (pid : Nat) (b : ProjectBody) :
    (store.find? (fun p => p.id == pid) = none →
      updateProject pid b store = (404, store)) ∧
    (∀ c, store.find? (fun p => p.id == pid) = some c →
      ((b.title.isNone || b.description.isNone || b.problemStatement.isNone ||
          b.role.isNone) = true →
        updateProject pid b store = (500, store)) ∧
      (projectRequiredOk (applyProjectBody b c) = false →
        updateProject pid b store = (500, store)) ∧
      ((b.title.isNone || b.description.isNone || b.problemStatement.isNone ||
          b.role.isNone) = false →
        projectRequiredOk (applyProjectBody b c) = true →
        (updateProject pid b store).1 = 200 ∧
        (updateProject pid b store).2.length = store.length ∧
        ∃ d ∈ (updateProject pid b store).2,
          d.id = c.id ∧ d.image = c.image ∧ d.createdAt = c.createdAt ∧
          (b.techStack = none → d.techStack = c.techStack) ∧
          (b.challenges = none → d.challenges = c.challenges) ∧
          (b.impact = none → d.impactMetrics = c.impactMetrics ∧
            d.impactDescription = c.impactDescription) ∧
          (b.links = none → d.linksGithub = c.linksGithub ∧
            d.linksLive = c.linksLive ∧ d.linksDemo = c.linksDemo) ∧
          (b.order = none → d.order = c.order) ∧
          d.featured = (b.featured == some "true") ∧
          (∀ s, b.title = some s → d.title = trimStr s) ∧
          (∀ s, b.description = some s → d.description = s) ∧
          (∀ s, b.problemStatement = some s → d.problemStatement = s) ∧
          (∀ s, b.role = some s → d.role = s))) := by
  constructor
  · intro h
    unfold updateProject
    rw [h]
  · intro c hfind
    refine ⟨?_, ?_, ?_⟩
    · intro hnone
      simp [updateProject, hfind, hnone]
    · intro hreqf
      cases hcond : (b.title.isNone || b.description.isNone ||
          b.problemStatement.isNone || b.role.isNone) with
      | true => simp [updateProject, hfind, hcond]
      | false => simp [updateProject, hfind, hcond, hreqf]
    · intro hsome hreq
      have hred : updateProject pid b store =
          (200, updateFirst (fun x => x.id == pid) (applyProjectBody b) store) := by
        simp [updateProject, hfind, hsome, hreq]
      refine ⟨by rw [hred], ?_, ?_⟩
      · rw [hred]
        exact updateFirst_length _ _ _
      · rw [hred]
        refine ⟨applyProjectBody b c, mem_updateFirst_of_find? hfind,
          rfl, rfl, rfl, ?_, ?_, ?_, ?_, ?_, rfl, ?_, ?_, ?_, ?_⟩
        · intro h
          simp [applyProjectBody, h]
        · intro h
          simp [applyProjectBody, h]
        · intro h
          exact ⟨by simp [applyProjectBody, h], by simp [applyProjectBody, h]⟩
        · intro h
          exact ⟨by simp [applyProjectBody, h], by simp [applyProjectBody, h],
            by simp [applyProjectBody, h]⟩
        · intro h
          simp [applyProjectBody, h]
        · intro s hs
          simp [applyProjectBody, hs]
        · intro s hs
          simp [applyProjectBody, hs]
        · intro s hs
          simp [applyProjectBody, hs]
        · intro s hs
          simp [applyProjectBody, hs]

/-- C9 witness: the sample update succeeds with 200 on the present id,
yields 404 on an absent id, and a whitespace-only title is rejected with
500 leaving the store unchanged. -/
theorem update_project_merge_semantics_witness :
    (updateProject 1 sampleUpdateBody [sampleProject]).1 = 200 ∧
    updateProject 9 sampleUpdateBody [sampleProject] = (404, [sampleProject]) ∧
    updateProject 1 sampleWhitespaceBody [sampleProject] =
      (500, [sampleProject]) := by
  have h1 := ((update_project_merge_semantics [sampleProject] 1
    sampleUpdateBody).2 sampleProject (by decide)).2.2 (by decide) (by decide)
  have h2 := (update_project_merge_semantics [sampleProject] 9
    sampleUpdateBody).1 (by decide)
  have h3 := ((update_project_merge_semantics [sampleProject] 1
    sampleWhitespaceBody).2 sampleProject (by decide)).2.1 (by decide)
  exact ⟨h1.1, h2, h3⟩

end Portfolio
